import Mathlib

/- Verification of the S3 repository model (src/s3repo/model.py) of the
tarantool-repositories service: a shallow embedding of the path-formatting
logic, the package-upload coordinator, the repository discovery helpers and
the synchronization worker loop, followed by theorems about their behaviour. -/

namespace S3Repo

/-- Python exception values constructed or raised by the model code.
`s3ModelRequestError` embeds `S3ModelRequestError` (model.py lines 17-20),
`runtimeError` embeds `RuntimeError`, `keyError` embeds the `KeyError` a
failed dictionary lookup raises, and `notImplementedError` embeds
`NotImplementedError`. -/
inductive PyError where
  | s3ModelRequestError (msg : String)
  | runtimeError (msg : String)
  | keyError (key : String)
  | notImplementedError (msg : String)
deriving DecidableEq, Repr

/-- The error message template of `_format_paths` (model.py lines 86-87):
the Python source concatenates two string literals and fills in the filename
and the distribution base with `str.format`. -/
def file_type_err (filename dist_base : String) : String :=
  "The \"" ++ filename ++ "\" file does not match the type of files used in the "
    ++ dist_base ++ "-based repositories."

/-- Embedding of `re.fullmatch(r'.*\.(x86_64|noarch)\.rpm', filename)`
(model.py line 89). In Python, `.` does not match a newline, so the whole
string matches exactly when it ends with `.x86_64.rpm` or `.noarch.rpm` and
contains no newline character. -/
def matchesRpmBinary (filename : String) : Bool :=
  (decide (".x86_64.rpm".data <:+ filename.data)
      || decide (".noarch.rpm".data <:+ filename.data))
    && !(filename.data.contains '\n')

/-- Embedding of `re.fullmatch(r'.*\.src\.rpm', filename)` (model.py
line 104): the string ends with `.src.rpm` and contains no newline. -/
def matchesRpmSrc (filename : String) : Bool :=
  decide (".src.rpm".data <:+ filename.data) && !(filename.data.contains '\n')

/-- Embedding of `re.fullmatch(r'.*\.(deb|dsc|tar\.xz|tar\.gz)', filename)`
(model.py line 123): the string ends with one of the four extensions and
contains no newline. -/
def matchesDeb (filename : String) : Bool :=
  (decide (".deb".data <:+ filename.data)
      || decide (".dsc".data <:+ filename.data)
      || decide (".tar.xz".data <:+ filename.data)
      || decide (".tar.gz".data <:+ filename.data))
    && !(filename.data.contains '\n')

/-- Embedding of Python `filename[:1]` (model.py line 135): the first
character of the filename, as a string (empty if the filename is empty). -/
def firstChar (filename : String) : String :=
  ⟨filename.data.take 1⟩

/-- Embedding of Python `filename.partition('_')[0]` (model.py line 136):
the part of the filename before its first underscore, or the whole
filename when it contains no underscore. -/
def partitionBeforeUnderscore (filename : String) : String :=
  ⟨filename.data.takeWhile (fun c => !(c == '_'))⟩

/-- Embedding of the static method `S3AsyncModel._format_paths` (model.py
lines 78-145). Returns `Except.ok (repo_path, path)` where the Python code
returns the tuple `(repo_path, path)`, and `Except.error` where it raises. -/
def _format_paths (dist_path dist_version dist_base filename : String) :
    Except PyError (String × String) :=
  if dist_base = "rpm" then
    if matchesRpmBinary filename then
      let repo_path := dist_path ++ "/" ++ dist_version ++ "/" ++ "x86_64"
      Except.ok (repo_path, repo_path ++ "/" ++ "Packages" ++ "/" ++ filename)
    else if matchesRpmSrc filename then
      let repo_path := dist_path ++ "/" ++ dist_version ++ "/" ++ "SRPMS"
      Except.ok (repo_path, repo_path ++ "/" ++ "Packages" ++ "/" ++ filename)
    else
      Except.error (PyError.s3ModelRequestError (file_type_err filename dist_base))
  else if dist_base = "deb" then
    if matchesDeb filename then
      let repo_path := dist_path
      Except.ok (repo_path,
        repo_path ++ "/" ++ "pool" ++ "/" ++ dist_version ++ "/" ++ "main" ++ "/"
          ++ firstChar filename ++ "/" ++ partitionBeforeUnderscore filename ++ "/" ++ filename)
    else
      Except.error (PyError.s3ModelRequestError (file_type_err filename dist_base))
  else
    Except.error (PyError.runtimeError ("Unknown repository base: " ++ dist_base ++ "."))

/-- Helper: among two suffixes of the same list, the shorter is a suffix of
the longer. -/
theorem suffix_suffix_length_le {α : Type} {l₁ l₂ l₃ : List α}
    (h₁ : l₁ <:+ l₃) (h₂ : l₂ <:+ l₃) (h : l₁.length ≤ l₂.length) : l₁ <:+ l₂ := by
  have hp := List.prefix_of_prefix_length_le h₁.reverse h₂.reverse (by simpa)
  exact List.reverse_prefix.mp hp

/-- Helper: a filename ending in `.src.rpm` does not match the binary-rpm
regular expression (its two alternatives end differently). -/
theorem matchesRpmBinary_eq_false_of_src (f : String)
    (h : ".src.rpm".data <:+ f.data) : matchesRpmBinary f = false := by
  have h1 : ¬ (".x86_64.rpm".data <:+ f.data) := by
    intro hx
    exact absurd (suffix_suffix_length_le h hx (by decide)) (by decide)
  have h2 : ¬ (".noarch.rpm".data <:+ f.data) := by
    intro hx
    exact absurd (suffix_suffix_length_le h hx (by decide)) (by decide)
  simp [matchesRpmBinary, h1, h2]

/-- C1 fails as stated: the Python regular expression `.*\.(x86_64|noarch)\.rpm`
does not let `.` match a newline, so this filename, which does end in
`.x86_64.rpm`, is rejected with `S3ModelRequestError` instead of being
given the claimed repository path. -/
theorem c1_counterexample :
    ".x86_64.rpm".data <:+ ("a\nb.x86_64.rpm" : String).data ∧
      _format_paths "repo/2.8/fedora" "31" "rpm" "a\nb.x86_64.rpm" =
        Except.error (PyError.s3ModelRequestError
          (file_type_err "a\nb.x86_64.rpm" "rpm")) := by
  constructor
  · decide
  · rfl

/-- C1 (amended: the filename must also be newline-free, which is what the
Python regex enforces): for every newline-free filename ending in
`.x86_64.rpm` or `.noarch.rpm`, `_format_paths` with the rpm base returns
`repo_path = dist_path/dist_version/x86_64` and
`object_path = repo_path/Packages/filename`; for every newline-free filename
ending in `.src.rpm` it returns `repo_path = dist_path/dist_version/SRPMS`
and `object_path = repo_path/Packages/filename`. -/
theorem c1_rpm_paths (dist_path dist_version f : String)
    (hnl : f.data.contains '\n' = false) :
    ((".x86_64.rpm".data <:+ f.data ∨ ".noarch.rpm".data <:+ f.data) →
      _format_paths dist_path dist_version "rpm" f =
        Except.ok (dist_path ++ "/" ++ dist_version ++ "/" ++ "x86_64",
          dist_path ++ "/" ++ dist_version ++ "/" ++ "x86_64"
            ++ "/" ++ "Packages" ++ "/" ++ f)) ∧
    (".src.rpm".data <:+ f.data →
      _format_paths dist_path dist_version "rpm" f =
        Except.ok (dist_path ++ "/" ++ dist_version ++ "/" ++ "SRPMS",
          dist_path ++ "/" ++ dist_version ++ "/" ++ "SRPMS"
            ++ "/" ++ "Packages" ++ "/" ++ f)) := by
  have hnl' : '\n' ∉ f.data := by simpa using hnl
  constructor
  · intro h
    have hb : matchesRpmBinary f = true := by
      rcases h with h | h
      · simp [matchesRpmBinary, h, hnl']
      · simp [matchesRpmBinary, h, hnl']
    simp [_format_paths, hb]
  · intro h
    have hb : matchesRpmBinary f = false := matchesRpmBinary_eq_false_of_src f h
    have hs : matchesRpmSrc f = true := by
      simp [matchesRpmSrc, h, hnl']
    simp [_format_paths, hb, hs]

/-- Witness for `c1_rpm_paths` at concrete inputs. -/
theorem c1_rpm_paths_witness :
    _format_paths "repo/2.8/fedora" "31" "rpm" "tarantool-2.8.1-1.x86_64.rpm" =
      Except.ok ("repo/2.8/fedora" ++ "/" ++ "31" ++ "/" ++ "x86_64",
        "repo/2.8/fedora" ++ "/" ++ "31" ++ "/" ++ "x86_64"
          ++ "/" ++ "Packages" ++ "/" ++ "tarantool-2.8.1-1.x86_64.rpm") ∧
    _format_paths "repo/2.8/fedora" "31" "rpm" "tarantool-2.8.1-1.src.rpm" =
      Except.ok ("repo/2.8/fedora" ++ "/" ++ "31" ++ "/" ++ "SRPMS",
        "repo/2.8/fedora" ++ "/" ++ "31" ++ "/" ++ "SRPMS"
          ++ "/" ++ "Packages" ++ "/" ++ "tarantool-2.8.1-1.src.rpm") :=
  ⟨(c1_rpm_paths "repo/2.8/fedora" "31" "tarantool-2.8.1-1.x86_64.rpm" (by decide)).1
      (Or.inl (by decide)),
    (c1_rpm_paths "repo/2.8/fedora" "31" "tarantool-2.8.1-1.src.rpm" (by decide)).2
      (by decide)⟩

/-- C2 fails as stated: the Python regular expression
`.*\.(deb|dsc|tar\.xz|tar\.gz)` does not let `.` match a newline, so this
filename, which does end in `.deb`, is rejected with `S3ModelRequestError`
instead of being placed in the pool. -/
theorem c2_counterexample :
    ".deb".data <:+ ("a\nb.deb" : String).data ∧
      _format_paths "repo/2.8/ubuntu" "disco" "deb" "a\nb.deb" =
        Except.error (PyError.s3ModelRequestError
          (file_type_err "a\nb.deb" "deb")) := by
  constructor
  · decide
  · rfl

/-- C2 (amended: the filename must also be newline-free, which is what the
Python regex enforces): for every newline-free filename ending in `.deb`,
`.dsc`, `.tar.xz` or `.tar.gz`, `_format_paths` with the deb base returns
`repo_path = dist_path` (the distribution version is not part of the
repository root) and `object_path = repo_path/pool/dist_version/main/<first
character of filename>/<part of filename before its first underscore>/filename`;
in particular `tarantool_2.8.1-1_amd64.deb` with `dist_path = repo/2.8/ubuntu`
and `dist_version = disco` is placed at
`repo/2.8/ubuntu/pool/disco/main/t/tarantool/tarantool_2.8.1-1_amd64.deb`. -/
theorem c2_deb_paths (dist_path dist_version f : String)
    (hnl : f.data.contains '\n' = false)
    (h : ".deb".data <:+ f.data ∨ ".dsc".data <:+ f.data
      ∨ ".tar.xz".data <:+ f.data ∨ ".tar.gz".data <:+ f.data) :
    _format_paths dist_path dist_version "deb" f =
      Except.ok (dist_path,
        dist_path ++ "/" ++ "pool" ++ "/" ++ dist_version ++ "/" ++ "main" ++ "/"
          ++ firstChar f ++ "/" ++ partitionBeforeUnderscore f ++ "/" ++ f) ∧
    _format_paths "repo/2.8/ubuntu" "disco" "deb" "tarantool_2.8.1-1_amd64.deb" =
      Except.ok ("repo/2.8/ubuntu",
        "repo/2.8/ubuntu/pool/disco/main/t/tarantool/tarantool_2.8.1-1_amd64.deb") := by
  have hnl' : '\n' ∉ f.data := by simpa using hnl
  constructor
  · have hd : matchesDeb f = true := by
      rcases h with h | h | h | h <;> simp [matchesDeb, h, hnl']
    simp [_format_paths, hd]
  · rfl

/-- Witness for `c2_deb_paths` at concrete inputs. -/
theorem c2_deb_paths_witness :
    _format_paths "repo/2.8/ubuntu" "disco" "deb" "tarantool_2.8.1-1_amd64.deb" =
      Except.ok ("repo/2.8/ubuntu",
        "repo/2.8/ubuntu" ++ "/" ++ "pool" ++ "/" ++ "disco" ++ "/" ++ "main" ++ "/"
          ++ firstChar "tarantool_2.8.1-1_amd64.deb"
          ++ "/" ++ partitionBeforeUnderscore "tarantool_2.8.1-1_amd64.deb"
          ++ "/" ++ "tarantool_2.8.1-1_amd64.deb") :=
  (c2_deb_paths "repo/2.8/ubuntu" "disco" "tarantool_2.8.1-1_amd64.deb"
    (by decide) (Or.inl (by decide))).1

/-- C4: a filename whose extension does not belong to the active layout
kind's extension set is rejected with `S3ModelRequestError`, whose message
(`file_type_err`) spells out both the filename and the layout kind; any
layout kind other than `rpm` and `deb` is rejected with the distinct
`RuntimeError` constructor, never with `S3ModelRequestError`. -/
theorem c4_invalid_inputs (dist_path dist_version dist_base f : String) :
    (dist_base = "rpm" →
      ¬(".x86_64.rpm".data <:+ f.data ∨ ".noarch.rpm".data <:+ f.data
          ∨ ".src.rpm".data <:+ f.data) →
      _format_paths dist_path dist_version dist_base f =
        Except.error (PyError.s3ModelRequestError (file_type_err f dist_base))) ∧
    (dist_base = "deb" →
      ¬(".deb".data <:+ f.data ∨ ".dsc".data <:+ f.data
          ∨ ".tar.xz".data <:+ f.data ∨ ".tar.gz".data <:+ f.data) →
      _format_paths dist_path dist_version dist_base f =
        Except.error (PyError.s3ModelRequestError (file_type_err f dist_base))) ∧
    (dist_base ≠ "rpm" → dist_base ≠ "deb" →
      _format_paths dist_path dist_version dist_base f =
        Except.error (PyError.runtimeError
          ("Unknown repository base: " ++ dist_base ++ "."))) := by
  refine ⟨?_, ?_, ?_⟩
  · intro hb h
    push_neg at h
    obtain ⟨h1, h2, h3⟩ := h
    have hbin : matchesRpmBinary f = false := by
      simp [matchesRpmBinary, h1, h2]
    have hsrc : matchesRpmSrc f = false := by
      simp [matchesRpmSrc, h3]
    subst hb
    simp [_format_paths, hbin, hsrc]
  · intro hb h
    push_neg at h
    obtain ⟨h1, h2, h3, h4⟩ := h
    have hd : matchesDeb f = false := by
      simp [matchesDeb, h1, h2, h3, h4]
    subst hb
    simp [_format_paths, hd]
  · intro h1 h2
    simp [_format_paths, h1, h2]

/-- Witness for `c4_invalid_inputs`: a text file is rejected by the rpm
layout as a request error, and an unknown layout kind is a `RuntimeError`. -/
theorem c4_invalid_inputs_witness :
    _format_paths "repo/2.8/fedora" "31" "rpm" "readme.txt" =
      Except.error (PyError.s3ModelRequestError (file_type_err "readme.txt" "rpm")) ∧
    _format_paths "repo/2.8/alpine" "3.15" "apk" "tarantool.apk" =
      Except.error (PyError.runtimeError ("Unknown repository base: " ++ "apk" ++ ".")) :=
  ⟨(c4_invalid_inputs "repo/2.8/fedora" "31" "rpm" "readme.txt").1 rfl (by decide),
    (c4_invalid_inputs "repo/2.8/alpine" "3.15" "apk" "tarantool.apk").2.2
      (by decide) (by decide)⟩

/-- Description of one distribution inside `supported_repos['distrs']`:
its layout base (`rpm` or `deb`) and its version list. -/
structure DistDescription where
  base : String
  versions : List String
deriving DecidableEq, Repr

/-- The `supported_repos` part of the settings dictionary: repo kinds,
tarantool series, the expansion of the `enabled` alias, and the
per-distribution descriptions (an association list standing for the
Python dictionary). -/
structure SupportedRepos where
  repo_kind : List String
  tarantool_series : List String
  enabled : List String
  distrs : List (String × DistDescription)
deriving DecidableEq, Repr

/-- The parts of `s3_settings` the model logic reads. `base_path` models
`s3_settings.get('base_path', '')`: the empty string stands for an unset or
falsy value, which is exactly how the Python code branches on it. -/
structure S3Settings where
  bucket_name : String
  base_path : String
  supported_repos : SupportedRepos
deriving DecidableEq, Repr

/-- A package handed to `put_package`. The byte streams of the files are
irrelevant to the control flow, so `files` keeps only the dictionary keys
(filenames) in their iteration order; Python dictionary keys are unique. -/
structure Package where
  repo_kind : String
  tarantool_series : String
  dist : String
  dist_version : String
  files : List String
deriving DecidableEq, Repr

/-- An object-store location, as recorded in `origin_files[filename] =
{'Bucket': ..., 'Key': ...}` (model.py lines 172-175). -/
structure S3Loc where
  bucket : String
  key : String
deriving DecidableEq, Repr

/-- An observable object-store side effect of `_upload_files`: either
`obj.upload_fileobj(file)` for the stream of `filename` at `path`, or
`self.bucket.copy(origin_files[filename], path)`. The filename records
which loop iteration performed the operation. -/
inductive S3Event where
  | upload (filename : String) (path : String)
  | copy (filename : String) (src : S3Loc) (dst : String)
deriving DecidableEq, Repr

/-- The mutable state of an `S3AsyncModel`: the `unsync_repos` set and the
trace of object-store operations performed so far. -/
structure ModelState where
  unsync_repos : Finset String
  events : List S3Event
deriving DecidableEq

/-- The `dist_path` computed at the top of `_upload_files` (model.py lines
149-155): `'/'.join` of `base_path?`, `repo_kind`, `tarantool_series`,
`dist`, with `base_path` omitted when falsy. -/
def distPathOf (settings : S3Settings) (package : Package) (tarantool_series : String) :
    String :=
  let dist_path_list := [package.repo_kind, tarantool_series, package.dist]
  let dist_path_list :=
    if settings.base_path ≠ "" then settings.base_path :: dist_path_list
    else dist_path_list
  String.intercalate "/" dist_path_list

/-- The dictionary lookup `supported_repos['distrs'][dist]`
(model.py line 156). -/
def lookupDistr (distrs : List (String × DistDescription)) (dist : String) :
    Option DistDescription :=
  distrs.lookup dist

/-- The `for filename, file in package.files.items()` loop of
`_upload_files` (model.py lines 161-181), recursing over the remaining
filenames. Returns the model state (with the trace of performed uploads
and copies), the updated `origin_files`, the accumulated local
`unsync_repos_local` set, and the exception that interrupted the loop, if
any. -/
def uploadFilesLoop (bucket_name dist_path dist_version dist_base : String) :
    List String → ModelState → List (String × S3Loc) → Finset String →
      ModelState × List (String × S3Loc) × Finset String × Option PyError
  | [], st, origin_files, unsync_local => (st, origin_files, unsync_local, none)
  | filename :: rest, st, origin_files, unsync_local =>
    match _format_paths dist_path dist_version dist_base filename with
    | Except.error e => (st, origin_files, unsync_local, some e)
    | Except.ok (repo_path, path) =>
      match origin_files.lookup filename with
      | some loc =>
        uploadFilesLoop bucket_name dist_path dist_version dist_base rest
          { st with events := st.events ++ [S3Event.copy filename loc path] }
          origin_files (insert repo_path unsync_local)
      | none =>
        uploadFilesLoop bucket_name dist_path dist_version dist_base rest
          { st with events := st.events ++ [S3Event.upload filename path] }
          (origin_files ++ [(filename, ⟨bucket_name, path⟩)])
          (insert repo_path unsync_local)

/-- Embedding of `S3AsyncModel._upload_files` (model.py lines 147-185).
On success the local dirty set is merged into the global `unsync_repos`
under the lock; when an exception escapes the loop the merge never runs
and the global set stays as it was, although the uploads already performed
remain in the trace. -/
def _upload_files (settings : S3Settings) (package : Package)
    (tarantool_series : String) (st : ModelState)
    (origin_files : List (String × S3Loc)) :
    ModelState × List (String × S3Loc) × Option PyError :=
  let dist_path := distPathOf settings package tarantool_series
  match lookupDistr settings.supported_repos.distrs package.dist with
  | none => (st, origin_files, some (PyError.keyError package.dist))
  | some dd =>
    match uploadFilesLoop settings.bucket_name dist_path package.dist_version dd.base
        package.files st origin_files ∅ with
    | (st', origin', unsync_local, none) =>
      ({ st' with unsync_repos := st'.unsync_repos ∪ unsync_local }, origin', none)
    | (st', origin', _, some e) => (st', origin', some e)

/-- The `for tarantool_series in tarantool_series_to_upload` loop of
`put_package` (model.py lines 384-385), threading the shared
`origin_files` dictionary through the calls and stopping at the first
exception. -/
def putPackageLoop (settings : S3Settings) (package : Package) :
    List String → ModelState → List (String × S3Loc) → ModelState × Option PyError
  | [], st, _ => (st, none)
  | series :: rest, st, origin_files =>
    match _upload_files settings package series st origin_files with
    | (st', origin', none) => putPackageLoop settings package rest st' origin'
    | (st', _, some e) => (st', some e)

/-- Embedding of `S3AsyncModel.put_package` (model.py lines 371-385):
resolve the `enabled` alias to the configured series list, then upload the
package once per series with a fresh, shared `origin_files`. -/
def put_package (settings : S3Settings) (package : Package) (st : ModelState) :
    ModelState × Option PyError :=
  let tarantool_series_to_upload :=
    if package.tarantool_series = "enabled" then settings.supported_repos.enabled
    else [package.tarantool_series]
  putPackageLoop settings package tarantool_series_to_upload st []

/-- The repository path component of a successful `_format_paths` call. -/
def repoPathOf (dist_path dist_version dist_base f : String) : String :=
  match _format_paths dist_path dist_version dist_base f with
  | Except.ok (repo_path, _) => repo_path
  | Except.error _ => ""

/-- The object path component of a successful `_format_paths` call. -/
def objPathOf (dist_path dist_version dist_base f : String) : String :=
  match _format_paths dist_path dist_version dist_base f with
  | Except.ok (_, path) => path
  | Except.error _ => ""

/-- Helper: `List.lookup` distributes over append, preferring the left
list. -/
theorem lookup_append {α β : Type} [BEq α] (a : α) (l₁ l₂ : List (α × β)) :
    (l₁ ++ l₂).lookup a =
      match l₁.lookup a with
      | some v => some v
      | none => l₂.lookup a := by
  induction l₁ with
  | nil => simp [List.lookup]
  | cons p l ih =>
    obtain ⟨k, v⟩ := p
    cases hk : a == k with
    | true => simp [List.lookup, hk]
    | false => simp [List.lookup, hk, ih]

/-- Helper: looking up an element of `l` in the association list that maps
every element `g` of `l` to `h g` finds `h` of that element. -/
theorem lookup_map_self {β : Type} (h : String → β) :
    ∀ (l : List String) (f : String), f ∈ l →
      (l.map (fun g => (g, h g))).lookup f = some (h f)
  | [], f, hf => absurd hf (List.not_mem_nil f)
  | g :: l, f, hf => by
    by_cases hfg : f = g
    · subst hfg
      simp [List.lookup]
    · have hmem : f ∈ l := by
        rcases List.mem_cons.mp hf with h' | h'
        · exact absurd h' hfg
        · exact h'
      have hbeq : (f == g) = false := beq_eq_false_iff_ne.mpr hfg
      simp [List.lookup, hbeq, lookup_map_self h l f hmem]

/-- Helper: a successful `_format_paths` call returns exactly the pair of
its `repoPathOf` and `objPathOf` projections. -/
theorem formatPaths_eq_ok {dist_path dist_version dist_base f : String}
    (h : (_format_paths dist_path dist_version dist_base f).isOk = true) :
    _format_paths dist_path dist_version dist_base f =
      Except.ok (repoPathOf dist_path dist_version dist_base f,
        objPathOf dist_path dist_version dist_base f) := by
  cases hfp : _format_paths dist_path dist_version dist_base f with
  | ok p =>
    obtain ⟨rp, op⟩ := p
    simp [repoPathOf, objPathOf, hfp]
  | error e =>
    rw [hfp] at h
    exact absurd h (by simp [Except.isOk, Except.toBool])

/-- Helper: whether `_format_paths` succeeds depends only on the base and
the filename, not on the distribution path or version. -/
theorem formatPaths_isOk_congr (dp dv dp' dv' dist_base f : String) :
    (_format_paths dp dv dist_base f).isOk =
      (_format_paths dp' dv' dist_base f).isOk := by
  unfold _format_paths
  split_ifs <;> rfl

/-- Helper: the starting set is contained in a fold that only inserts. -/
theorem subset_foldl_insert {α β : Type} [DecidableEq β] (g : α → β) :
    ∀ (l : List α) (init : Finset β),
      init ⊆ l.foldl (fun s a => insert (g a) s) init
  | [], _ => fun _ hx => hx
  | a :: l, init => fun _ hx =>
    subset_foldl_insert g l (insert (g a) init) (Finset.mem_insert_of_mem hx)

/-- Helper: folding insertion of `g` over a list collects `g` of every
element. -/
theorem mem_foldl_insert_of_mem {α β : Type} [DecidableEq β] (g : α → β) :
    ∀ (l : List α) (init : Finset β) (x : α), x ∈ l →
      g x ∈ l.foldl (fun s a => insert (g a) s) init
  | [], _, x, hx => absurd hx (List.not_mem_nil x)
  | a :: l, init, x, hx => by
    rcases List.mem_cons.mp hx with h | h
    · subst h
      exact subset_foldl_insert g l _ (Finset.mem_insert_self _ _)
    · exact mem_foldl_insert_of_mem g l (insert (g a) init) x h

/-- Helper: a run of the `_upload_files` loop over filenames none of which
are recorded in `origin_files` uploads every file once, in order, records
every file's origin, and collects the repository paths; nothing fails. -/
theorem uploadFilesLoop_fresh (bn dp dv db : String) :
    ∀ (files : List String) (st : ModelState) (origin : List (String × S3Loc))
      (ls : Finset String),
      (∀ f ∈ files, (_format_paths dp dv db f).isOk = true) →
      (∀ f ∈ files, origin.lookup f = none) →
      files.Nodup →
      uploadFilesLoop bn dp dv db files st origin ls =
        ({ st with events := st.events
            ++ files.map (fun f => S3Event.upload f (objPathOf dp dv db f)) },
          origin ++ files.map (fun f => (f, ⟨bn, objPathOf dp dv db f⟩)),
          files.foldl (fun s f => insert (repoPathOf dp dv db f) s) ls,
          none)
  | [], st, origin, ls, _, _, _ => by simp [uploadFilesLoop]
  | f :: rest, st, origin, ls, hok, hfresh, hnd => by
    obtain ⟨hne, hndr⟩ := List.nodup_cons.mp hnd
    have hf := formatPaths_eq_ok (hok f (List.mem_cons_self f rest))
    have hlk := hfresh f (List.mem_cons_self f rest)
    have hfresh' : ∀ g ∈ rest,
        (origin ++ [(f, (⟨bn, objPathOf dp dv db f⟩ : S3Loc))]).lookup g = none := by
      intro g hg
      rw [lookup_append]
      have hgf : (g == f) = false := by
        simp only [beq_eq_false_iff_ne, ne_eq]
        intro hgf
        exact hne (hgf ▸ hg)
      simp [hfresh g (List.mem_cons.mpr (Or.inr hg)), List.lookup, hgf]
    have hrec := uploadFilesLoop_fresh bn dp dv db rest
      { st with events := st.events ++ [S3Event.upload f (objPathOf dp dv db f)] }
      (origin ++ [(f, ⟨bn, objPathOf dp dv db f⟩)])
      (insert (repoPathOf dp dv db f) ls)
      (fun g hg => hok g (List.mem_cons.mpr (Or.inr hg))) hfresh' hndr
    rw [uploadFilesLoop, hf, hlk]
    exact hrec.trans (by simp)

/-- Helper: a run of the `_upload_files` loop over filenames all of which
are recorded in `origin_files` copies every file once from its recorded
origin, leaves `origin_files` unchanged, and collects the repository
paths; nothing fails. -/
theorem uploadFilesLoop_found (bn dp dv db : String) (L : String → S3Loc) :
    ∀ (files : List String) (st : ModelState) (origin : List (String × S3Loc))
      (ls : Finset String),
      (∀ f ∈ files, (_format_paths dp dv db f).isOk = true) →
      (∀ f ∈ files, origin.lookup f = some (L f)) →
      uploadFilesLoop bn dp dv db files st origin ls =
        ({ st with events := st.events
            ++ files.map (fun f => S3Event.copy f (L f) (objPathOf dp dv db f)) },
          origin,
          files.foldl (fun s f => insert (repoPathOf dp dv db f) s) ls,
          none)
  | [], st, origin, ls, _, _ => by simp [uploadFilesLoop]
  | f :: rest, st, origin, ls, hok, hfound => by
    have hf := formatPaths_eq_ok (hok f (List.mem_cons_self f rest))
    have hlk := hfound f (List.mem_cons_self f rest)
    have hrec := uploadFilesLoop_found bn dp dv db L rest
      { st with events := st.events ++ [S3Event.copy f (L f) (objPathOf dp dv db f)] }
      origin (insert (repoPathOf dp dv db f) ls)
      (fun g hg => hok g (List.mem_cons.mpr (Or.inr hg)))
      (fun g hg => hfound g (List.mem_cons.mpr (Or.inr hg)))
    rw [uploadFilesLoop, hf, hlk]
    exact hrec.trans (by simp)

/-- Helper: the `_upload_files` loop processes an appended list by first
running the left part and, if it did not fail, continuing with the right
part. -/
theorem uploadFilesLoop_append (bn dp dv db : String) :
    ∀ (l₁ l₂ : List String) (st : ModelState) (origin : List (String × S3Loc))
      (ls : Finset String),
      uploadFilesLoop bn dp dv db (l₁ ++ l₂) st origin ls =
        match uploadFilesLoop bn dp dv db l₁ st origin ls with
        | (st', origin', ls', none) => uploadFilesLoop bn dp dv db l₂ st' origin' ls'
        | (st', origin', ls', some e) => (st', origin', ls', some e)
  | [], l₂, st, origin, ls => by simp [uploadFilesLoop]
  | f :: l₁, l₂, st, origin, ls => by
    rw [List.cons_append, uploadFilesLoop, uploadFilesLoop]
    cases hfp : _format_paths dp dv db f with
    | error e => rfl
    | ok p =>
      obtain ⟨rp, path⟩ := p
      cases hlk : origin.lookup f with
      | some loc => exact uploadFilesLoop_append bn dp dv db l₁ l₂ _ _ _
      | none => exact uploadFilesLoop_append bn dp dv db l₁ l₂ _ _ _

/-- Helper: `_upload_files` on a package none of whose files are recorded
in `origin_files` uploads every file, records every origin, and merges all
repository paths into the global set. -/
theorem upload_files_fresh (settings : S3Settings) (package : Package)
    (series : String) (st : ModelState) (origin : List (String × S3Loc))
    (dd : DistDescription)
    (hdd : lookupDistr settings.supported_repos.distrs package.dist = some dd)
    (hok : ∀ f ∈ package.files, (_format_paths (distPathOf settings package series)
        package.dist_version dd.base f).isOk = true)
    (hfresh : ∀ f ∈ package.files, origin.lookup f = none)
    (hnd : package.files.Nodup) :
    _upload_files settings package series st origin =
      (⟨st.unsync_repos ∪ package.files.foldl
          (fun s f => insert (repoPathOf (distPathOf settings package series)
            package.dist_version dd.base f) s) ∅,
        st.events ++ package.files.map (fun f => S3Event.upload f
          (objPathOf (distPathOf settings package series)
            package.dist_version dd.base f))⟩,
        origin ++ package.files.map (fun f => (f, ⟨settings.bucket_name,
          objPathOf (distPathOf settings package series)
            package.dist_version dd.base f⟩)),
        none) := by
  simp only [_upload_files, hdd]
  rw [uploadFilesLoop_fresh settings.bucket_name _ _ dd.base
    package.files st origin ∅ hok hfresh hnd]

/-- Helper: `_upload_files` on a package all of whose files are recorded
in `origin_files` copies every file from its recorded origin, leaves
`origin_files` unchanged, and merges all repository paths into the global
set. -/
theorem upload_files_found (settings : S3Settings) (package : Package)
    (series : String) (st : ModelState) (origin : List (String × S3Loc))
    (dd : DistDescription) (L : String → S3Loc)
    (hdd : lookupDistr settings.supported_repos.distrs package.dist = some dd)
    (hok : ∀ f ∈ package.files, (_format_paths (distPathOf settings package series)
        package.dist_version dd.base f).isOk = true)
    (hfound : ∀ f ∈ package.files, origin.lookup f = some (L f)) :
    _upload_files settings package series st origin =
      (⟨st.unsync_repos ∪ package.files.foldl
          (fun s f => insert (repoPathOf (distPathOf settings package series)
            package.dist_version dd.base f) s) ∅,
        st.events ++ package.files.map (fun f => S3Event.copy f (L f)
          (objPathOf (distPathOf settings package series)
            package.dist_version dd.base f))⟩,
        origin,
        none) := by
  simp only [_upload_files, hdd]
  rw [uploadFilesLoop_found settings.bucket_name _ _ dd.base L
    package.files st origin ∅ hok hfound]

/-- C3: for a package whose `tarantool_series` is the `enabled` alias and
whose enabled list has two series, `put_package` succeeds, and for every
file of the package the trace holds exactly one upload of that file's
stream (to the object path of the first series) and exactly one
server-side copy from the recorded origin location (to the object path of
the second series); both resulting repository paths are members of the
dirty set afterwards. -/
theorem c3_put_package_enabled (settings : S3Settings) (package : Package)
    (st : ModelState) (s1 s2 : String) (dd : DistDescription)
    (hseries : package.tarantool_series = "enabled")
    (henabled : settings.supported_repos.enabled = [s1, s2])
    (hdd : lookupDistr settings.supported_repos.distrs package.dist = some dd)
    (hnd : package.files.Nodup)
    (hok : ∀ f ∈ package.files, (_format_paths (distPathOf settings package s1)
        package.dist_version dd.base f).isOk = true)
    (hev : st.events = []) :
    (put_package settings package st).2 = none ∧
    ∀ f ∈ package.files,
      (put_package settings package st).1.events.count
          (S3Event.upload f (objPathOf (distPathOf settings package s1)
            package.dist_version dd.base f)) = 1 ∧
      (put_package settings package st).1.events.count
          (S3Event.copy f ⟨settings.bucket_name,
              objPathOf (distPathOf settings package s1) package.dist_version dd.base f⟩
            (objPathOf (distPathOf settings package s2)
              package.dist_version dd.base f)) = 1 ∧
      repoPathOf (distPathOf settings package s1) package.dist_version dd.base f
          ∈ (put_package settings package st).1.unsync_repos ∧
      repoPathOf (distPathOf settings package s2) package.dist_version dd.base f
          ∈ (put_package settings package st).1.unsync_repos := by
  have hok2 : ∀ f ∈ package.files, (_format_paths (distPathOf settings package s2)
      package.dist_version dd.base f).isOk = true := fun f hf =>
    (formatPaths_isOk_congr (distPathOf settings package s2) package.dist_version
      (distPathOf settings package s1) package.dist_version dd.base f).trans (hok f hf)
  have e1 := upload_files_fresh settings package s1 st [] dd hdd hok
    (fun _ _ => rfl) hnd
  have hfound : ∀ f ∈ package.files,
      (([] : List (String × S3Loc)) ++ package.files.map
          (fun g => (g, (⟨settings.bucket_name, objPathOf (distPathOf settings package s1)
            package.dist_version dd.base g⟩ : S3Loc)))).lookup f =
        some ⟨settings.bucket_name, objPathOf (distPathOf settings package s1)
          package.dist_version dd.base f⟩ := by
    intro f hf
    rw [List.nil_append]
    exact lookup_map_self (fun g => (⟨settings.bucket_name,
      objPathOf (distPathOf settings package s1) package.dist_version dd.base g⟩ : S3Loc))
      package.files f hf
  have e2 := upload_files_found settings package s2
    (⟨st.unsync_repos ∪ package.files.foldl
        (fun s f => insert (repoPathOf (distPathOf settings package s1)
          package.dist_version dd.base f) s) ∅,
      st.events ++ package.files.map (fun f => S3Event.upload f
        (objPathOf (distPathOf settings package s1) package.dist_version dd.base f))⟩)
    (([] : List (String × S3Loc)) ++ package.files.map
      (fun g => (g, (⟨settings.bucket_name, objPathOf (distPathOf settings package s1)
        package.dist_version dd.base g⟩ : S3Loc))))
    dd
    (fun f => ⟨settings.bucket_name, objPathOf (distPathOf settings package s1)
      package.dist_version dd.base f⟩)
    hdd hok2 hfound
  have hmain : put_package settings package st =
      (⟨(st.unsync_repos ∪ package.files.foldl
            (fun s f => insert (repoPathOf (distPathOf settings package s1)
              package.dist_version dd.base f) s) ∅)
          ∪ package.files.foldl
            (fun s f => insert (repoPathOf (distPathOf settings package s2)
              package.dist_version dd.base f) s) ∅,
        (st.events ++ package.files.map (fun f => S3Event.upload f
            (objPathOf (distPathOf settings package s1) package.dist_version dd.base f)))
          ++ package.files.map (fun f => S3Event.copy f
            ⟨settings.bucket_name, objPathOf (distPathOf settings package s1)
              package.dist_version dd.base f⟩
            (objPathOf (distPathOf settings package s2)
              package.dist_version dd.base f))⟩,
        none) := by
    simp only [put_package, hseries, henabled, if_pos]
    simp only [putPackageLoop, e1, e2]
  refine ⟨by rw [hmain], ?_⟩
  intro f hf
  have hinj1 : Function.Injective (fun g => S3Event.upload g
      (objPathOf (distPathOf settings package s1) package.dist_version dd.base g)) := by
    intro a b hab
    have h' := hab
    simp only [S3Event.upload.injEq] at h'
    exact h'.1
  have hinj2 : Function.Injective (fun g => S3Event.copy g
      ⟨settings.bucket_name, objPathOf (distPathOf settings package s1)
        package.dist_version dd.base g⟩
      (objPathOf (distPathOf settings package s2) package.dist_version dd.base g)) := by
    intro a b hab
    have h' := hab
    simp only [S3Event.copy.injEq] at h'
    exact h'.1
  refine ⟨?_, ?_, ?_, ?_⟩
  · rw [hmain]
    simp only [hev, List.nil_append, List.count_append]
    rw [List.count_map_of_injective package.files _ hinj1 f,
      List.count_eq_one_of_mem hnd hf]
    have : (package.files.map (fun g => S3Event.copy g
        ⟨settings.bucket_name, objPathOf (distPathOf settings package s1)
          package.dist_version dd.base g⟩
        (objPathOf (distPathOf settings package s2)
          package.dist_version dd.base g))).count
        (S3Event.upload f (objPathOf (distPathOf settings package s1)
          package.dist_version dd.base f)) = 0 := by
      rw [List.count_eq_zero]
      simp [List.mem_map]
    rw [this]
  · rw [hmain]
    simp only [hev, List.nil_append, List.count_append]
    rw [List.count_map_of_injective package.files _ hinj2 f,
      List.count_eq_one_of_mem hnd hf]
    have : (package.files.map (fun g => S3Event.upload g
        (objPathOf (distPathOf settings package s1)
          package.dist_version dd.base g))).count
        (S3Event.copy f ⟨settings.bucket_name,
          objPathOf (distPathOf settings package s1) package.dist_version dd.base f⟩
          (objPathOf (distPathOf settings package s2)
            package.dist_version dd.base f)) = 0 := by
      rw [List.count_eq_zero]
      simp [List.mem_map]
    rw [this]
  · rw [hmain]
    exact Finset.mem_union_left _ (Finset.mem_union_right _
      (mem_foldl_insert_of_mem (fun g => repoPathOf (distPathOf settings package s1)
        package.dist_version dd.base g) package.files ∅ f hf))
  · rw [hmain]
    exact Finset.mem_union_right _
      (mem_foldl_insert_of_mem (fun g => repoPathOf (distPathOf settings package s2)
        package.dist_version dd.base g) package.files ∅ f hf)

/-- A concrete settings value used to instantiate the theorems. -/
def sampleSettings : S3Settings :=
  { bucket_name := "tarantool.io"
    base_path := "live"
    supported_repos :=
      { repo_kind := ["release"]
        tarantool_series := ["1.10", "2.8"]
        enabled := ["1.10", "2.8"]
        distrs := [("fedora", { base := "rpm", versions := ["31"] }),
                   ("ubuntu", { base := "deb", versions := ["disco"] })] } }

/-- A concrete package used to instantiate the theorems. -/
def samplePackage : Package :=
  { repo_kind := "release", tarantool_series := "enabled", dist := "fedora",
    dist_version := "31", files := ["tarantool-2.8.1-1.x86_64.rpm"] }

/-- The model state at construction time: empty dirty set, empty trace. -/
def initialState : ModelState := ⟨∅, []⟩

/-- Witness for `c3_put_package_enabled` at a concrete package with one
file and two enabled series. -/
theorem c3_put_package_enabled_witness :
    (put_package sampleSettings samplePackage initialState).2 = none ∧
    (put_package sampleSettings samplePackage initialState).1.events.count
        (S3Event.upload "tarantool-2.8.1-1.x86_64.rpm"
          (objPathOf (distPathOf sampleSettings samplePackage "1.10") "31" "rpm"
            "tarantool-2.8.1-1.x86_64.rpm")) = 1 ∧
    (put_package sampleSettings samplePackage initialState).1.events.count
        (S3Event.copy "tarantool-2.8.1-1.x86_64.rpm"
          ⟨"tarantool.io", objPathOf (distPathOf sampleSettings samplePackage "1.10") "31" "rpm"
            "tarantool-2.8.1-1.x86_64.rpm"⟩
          (objPathOf (distPathOf sampleSettings samplePackage "2.8") "31" "rpm"
            "tarantool-2.8.1-1.x86_64.rpm")) = 1 ∧
    repoPathOf (distPathOf sampleSettings samplePackage "1.10") "31" "rpm"
        "tarantool-2.8.1-1.x86_64.rpm"
      ∈ (put_package sampleSettings samplePackage initialState).1.unsync_repos ∧
    repoPathOf (distPathOf sampleSettings samplePackage "2.8") "31" "rpm"
        "tarantool-2.8.1-1.x86_64.rpm"
      ∈ (put_package sampleSettings samplePackage initialState).1.unsync_repos := by
  have h := c3_put_package_enabled sampleSettings samplePackage initialState "1.10" "2.8"
    { base := "rpm", versions := ["31"] } rfl rfl (by decide) (by decide) (by decide) rfl
  exact ⟨h.1, h.2 "tarantool-2.8.1-1.x86_64.rpm" (by decide)⟩

/-- C9: when a file of the package fails path-formatting validation, the
failing `_upload_files` call reports the exception and leaves the global
`unsync_repos` set exactly as it was (its first component keeps
`st.unsync_repos` untouched), even though the files before the failing one
have already been uploaded to the object store, because the local dirty
set is merged into the global one only after the whole loop finishes. -/
theorem c9_failed_upload_preserves_unsync (settings : S3Settings) (package : Package)
    (series : String) (st : ModelState) (origin : List (String × S3Loc))
    (dd : DistDescription) (good : List String) (bad : String) (rest : List String)
    (hdd : lookupDistr settings.supported_repos.distrs package.dist = some dd)
    (hfiles : package.files = good ++ bad :: rest)
    (hok : ∀ f ∈ good, (_format_paths (distPathOf settings package series)
        package.dist_version dd.base f).isOk = true)
    (hbad : (_format_paths (distPathOf settings package series)
        package.dist_version dd.base bad).isOk = false)
    (hfresh : ∀ f ∈ good, origin.lookup f = none)
    (hnd : good.Nodup) :
    ∃ e, _upload_files settings package series st origin =
      ({ st with events := st.events ++ good.map (fun f => S3Event.upload f
          (objPathOf (distPathOf settings package series)
            package.dist_version dd.base f)) },
        origin ++ good.map (fun f => (f, ⟨settings.bucket_name,
          objPathOf (distPathOf settings package series)
            package.dist_version dd.base f⟩)),
        some e) := by
  cases hfp : _format_paths (distPathOf settings package series)
      package.dist_version dd.base bad with
  | ok p =>
    rw [hfp] at hbad
    simp [Except.isOk, Except.toBool] at hbad
  | error e =>
    refine ⟨e, ?_⟩
    simp only [_upload_files, hdd, hfiles]
    rw [uploadFilesLoop_append]
    rw [uploadFilesLoop_fresh settings.bucket_name _ _ dd.base
      good st origin ∅ hok hfresh hnd]
    simp only [uploadFilesLoop, hfp]

/-- Witness for `c9_failed_upload_preserves_unsync`: a package whose second
file has an extension foreign to the rpm layout. -/
theorem c9_failed_upload_preserves_unsync_witness :
    ∃ e, _upload_files sampleSettings
        { repo_kind := "release", tarantool_series := "1.10", dist := "fedora",
          dist_version := "31",
          files := ["tarantool-2.8.1-1.x86_64.rpm", "tarantool.deb"] }
        "1.10" initialState [] =
      ({ initialState with events := initialState.events
          ++ ["tarantool-2.8.1-1.x86_64.rpm"].map (fun f => S3Event.upload f
            (objPathOf (distPathOf sampleSettings
                { repo_kind := "release", tarantool_series := "1.10", dist := "fedora",
                  dist_version := "31",
                  files := ["tarantool-2.8.1-1.x86_64.rpm", "tarantool.deb"] } "1.10")
              "31" "rpm" f)) },
        [] ++ ["tarantool-2.8.1-1.x86_64.rpm"].map (fun f => (f, ⟨"tarantool.io",
          objPathOf (distPathOf sampleSettings
              { repo_kind := "release", tarantool_series := "1.10", dist := "fedora",
                dist_version := "31",
                files := ["tarantool-2.8.1-1.x86_64.rpm", "tarantool.deb"] } "1.10")
            "31" "rpm" f⟩)),
        some e) :=
  c9_failed_upload_preserves_unsync sampleSettings
    { repo_kind := "release", tarantool_series := "1.10", dist := "fedora",
      dist_version := "31",
      files := ["tarantool-2.8.1-1.x86_64.rpm", "tarantool.deb"] }
    "1.10" initialState [] { base := "rpm", versions := ["31"] }
    ["tarantool-2.8.1-1.x86_64.rpm"] "tarantool.deb" []
    (by decide) rfl (by decide) (by decide) (fun _ _ => rfl) (by decide)

/-- The externally observable outcome of one iteration of the `while True`
loop in `S3AsyncModel.sync` (model.py lines 325-369): either the external
`mkrepo` tool ran on a popped repository and exited with a code, or the
worker slept for a number of seconds, or it left the loop. -/
inductive SyncStepResult where
  | ranTool (repo : String) (exitCode : Int)
  | slept (seconds : Nat)
  | terminated
deriving DecidableEq, Repr

/-- One iteration of the `S3AsyncModel.sync` loop (model.py lines 325-369)
acting on the `unsync_repos` set. `pick` models the arbitrary choice made
by `set.pop()`; `exitOf` models the exit status of the external `mkrepo`
process for a given repository path. If the set is non-empty the worker
pops a repository, runs the tool, and re-adds the repository exactly when
the exit status is non-zero; on an empty set a permanent worker sleeps 5
seconds and a transient worker terminates. -/
def syncStep (permanent : Bool) (pick : Finset String → String)
    (exitOf : String → Int) (unsync_repos : Finset String) :
    SyncStepResult × Finset String :=
  if unsync_repos = ∅ then
    if permanent then (SyncStepResult.slept 5, unsync_repos)
    else (SyncStepResult.terminated, unsync_repos)
  else
    let sync_repo := pick unsync_repos
    let remaining := unsync_repos.erase sync_repo
    let result := exitOf sync_repo
    if result ≠ 0 then (SyncStepResult.ranTool sync_repo result, insert sync_repo remaining)
    else (SyncStepResult.ranTool sync_repo result, remaining)

/-- Helper: a failing iteration never removes any repository for good:
any member of the set is still a member after the step when the tool
fails everywhere, as is any member of an idle set. -/
theorem mem_syncStep_preserved (permanent : Bool) (pick : Finset String → String)
    (exitOf : String → Int) (s : Finset String) (repo : String)
    (hmem : repo ∈ s) (hfail : ∀ r, exitOf r ≠ 0) :
    repo ∈ (syncStep permanent pick exitOf s).2 := by
  have hs : s ≠ ∅ := by
    intro h
    rw [h] at hmem
    exact absurd hmem (Finset.not_mem_empty repo)
  simp only [syncStep, if_neg hs, if_pos (hfail (pick s))]
  by_cases h : repo = pick s
  · subst h
    exact Finset.mem_insert_self _ _
  · exact Finset.mem_insert_of_mem (Finset.mem_erase.mpr ⟨h, hmem⟩)

/-- C5: in an iteration that pops a repository and sees a non-zero exit
status from the external tool, that exact path is re-inserted into the
set unconditionally (and the iteration's outcome is a tool run, not a
sleep); on a zero exit status it is not re-added; with an always-failing
tool the popped path is still a member after any number of further
iterations — no backoff state, attempt counter or retry ceiling exists in
the model state. -/
theorem c5_retry_on_failure (permanent : Bool) (pick : Finset String → String)
    (exitOf : String → Int) (unsync : Finset String)
    (hpick : pick unsync ∈ unsync) :
    (exitOf (pick unsync) ≠ 0 →
      (syncStep permanent pick exitOf unsync).1 =
        SyncStepResult.ranTool (pick unsync) (exitOf (pick unsync)) ∧
      (syncStep permanent pick exitOf unsync).2 =
        insert (pick unsync) (unsync.erase (pick unsync)) ∧
      pick unsync ∈ (syncStep permanent pick exitOf unsync).2) ∧
    (exitOf (pick unsync) = 0 →
      (syncStep permanent pick exitOf unsync).2 = unsync.erase (pick unsync) ∧
      pick unsync ∉ (syncStep permanent pick exitOf unsync).2) ∧
    ((∀ r, exitOf r ≠ 0) → ∀ n : ℕ,
      pick unsync ∈ (fun s => (syncStep permanent pick exitOf s).2)^[n] unsync) := by
  have hne : unsync ≠ ∅ := by
    intro h
    rw [h] at hpick
    exact absurd hpick (Finset.not_mem_empty _)
  refine ⟨?_, ?_, ?_⟩
  · intro hfail
    simp only [syncStep, if_neg hne, if_pos hfail]
    exact ⟨trivial, trivial, Finset.mem_insert_self _ _⟩
  · intro hzero
    have hnot : ¬ (exitOf (pick unsync) ≠ 0) := fun h => h hzero
    simp only [syncStep, if_neg hne, if_neg hnot]
    exact ⟨trivial, Finset.not_mem_erase _ _⟩
  · intro hfail n
    induction n with
    | zero => exact hpick
    | succ k ih =>
      rw [Function.iterate_succ_apply']
      exact mem_syncStep_preserved permanent pick exitOf _ _ ih hfail

/-- Witness for `c5_retry_on_failure`: a one-element dirty set with a
failing tool keeps its element; with a succeeding tool the element is
popped for good. -/
theorem c5_retry_on_failure_witness :
    (syncStep true (fun _ => "live/1.10/fedora/31/x86_64")
        (fun _ => (1 : Int)) {"live/1.10/fedora/31/x86_64"}).1 =
      SyncStepResult.ranTool "live/1.10/fedora/31/x86_64" 1 ∧
    "live/1.10/fedora/31/x86_64" ∈ (syncStep true (fun _ => "live/1.10/fedora/31/x86_64")
        (fun _ => (1 : Int)) {"live/1.10/fedora/31/x86_64"}).2 ∧
    "live/1.10/fedora/31/x86_64" ∉ (syncStep true (fun _ => "live/1.10/fedora/31/x86_64")
        (fun _ => (0 : Int)) {"live/1.10/fedora/31/x86_64"}).2 := by
  have h1 := c5_retry_on_failure true (fun _ => "live/1.10/fedora/31/x86_64")
    (fun _ => (1 : Int)) {"live/1.10/fedora/31/x86_64"} (by simp)
  have h0 := c5_retry_on_failure true (fun _ => "live/1.10/fedora/31/x86_64")
    (fun _ => (0 : Int)) {"live/1.10/fedora/31/x86_64"} (by simp)
  exact ⟨(h1.1 (by decide)).1, (h1.1 (by decide)).2.2, (h0.2.1 rfl).2⟩

/-- C6: observing an empty dirty set, a transient worker
(`sync(permanent=False)`) terminates at once and the transient loop can
never produce a sleep outcome on any set; the permanent worker
(`sync(permanent=True)`) sleeps the fixed 5 seconds, leaves the set
untouched, and can never produce the terminated outcome on any set. -/
theorem c6_idle_behaviour (pick : Finset String → String) (exitOf : String → Int) :
    syncStep false pick exitOf ∅ = (SyncStepResult.terminated, ∅) ∧
    (∀ (s : Finset String) (n : Nat),
      (syncStep false pick exitOf s).1 ≠ SyncStepResult.slept n) ∧
    syncStep true pick exitOf ∅ = (SyncStepResult.slept 5, ∅) ∧
    (∀ s : Finset String,
      (syncStep true pick exitOf s).1 ≠ SyncStepResult.terminated) := by
  refine ⟨by simp [syncStep], ?_, by simp [syncStep], ?_⟩
  · intro s n
    by_cases hs : s = ∅
    · simp [syncStep, hs]
    · simp only [syncStep, if_neg hs]
      split_ifs <;> simp
  · intro s
    by_cases hs : s = ∅
    · simp [syncStep, hs]
    · simp only [syncStep, if_neg hs]
      split_ifs <;> simp

/-- Witness for `c6_idle_behaviour` at a concrete pick function, exit
function and sets. -/
theorem c6_idle_behaviour_witness :
    syncStep false (fun _ => "r") (fun _ => (0 : Int)) ∅ =
      (SyncStepResult.terminated, ∅) ∧
    syncStep true (fun _ => "r") (fun _ => (0 : Int)) ∅ =
      (SyncStepResult.slept 5, ∅) ∧
    (syncStep false (fun _ => "r") (fun _ => (0 : Int)) {"r"}).1 ≠
      SyncStepResult.slept 5 ∧
    (syncStep true (fun _ => "r") (fun _ => (0 : Int)) {"r"}).1 ≠
      SyncStepResult.terminated := by
  have h := c6_idle_behaviour (fun _ => "r") (fun _ => (0 : Int))
  exact ⟨h.1, h.2.2.1, h.2.1 {"r"} 5, h.2.2.2 {"r"}⟩

/-- Kind of an access to the shared `unsync_repos` set: the truthiness
check `if self.unsync_repos:`, a `pop()`, or an `add`/`update`. -/
inductive SetAccessKind where
  | emptinessCheck
  | popElem
  | addElem
deriving DecidableEq, Repr

/-- One access to `unsync_repos`, paired with whether `sync_lock` was held
when the interpreter performed it. -/
structure SetAccess where
  kind : SetAccessKind
  lockHeld : Bool
deriving DecidableEq, Repr

/-- The accesses to `unsync_repos` performed by one iteration of the
`sync` loop, read off model.py lines 325-361 in program order: the
truthiness check at line 326 runs before `sync_lock.acquire()` at line
327, so the lock is not held for it; the `pop()` at line 328 and the
re-add at line 360 happen between acquire and release. When the set is
seen empty (or the tool succeeds) the later accesses do not occur. -/
def syncIterationAccesses (seenNonempty toolFails : Bool) : List SetAccess :=
  { kind := SetAccessKind.emptinessCheck, lockHeld := false } ::
    (if seenNonempty then
      { kind := SetAccessKind.popElem, lockHeld := true } ::
        (if toolFails then [{ kind := SetAccessKind.addElem, lockHeld := true }] else [])
    else [])

/-- The accesses to `unsync_repos` performed by the final merge of
`_upload_files` (model.py lines 183-185): one update between acquire and
release. -/
def uploadFilesMergeAccesses : List SetAccess :=
  [{ kind := SetAccessKind.addElem, lockHeld := true }]

/-- The accesses to `unsync_repos` performed by the add loop of
`sync_all_repos` (model.py lines 302-305): adds between acquire and
release. -/
def syncAllReposAddAccesses : List SetAccess :=
  [{ kind := SetAccessKind.addElem, lockHeld := true }]

/-- C7 fails on the code: the emptiness check of the sync loop reads
`unsync_repos` without holding `sync_lock` (model.py line 326 precedes the
acquire at line 327), contradicting both the claim and the code's own
comment at lines 66-68 that all actions on the set are done under the
lock. Every other access — pop, the failure re-add, the upload merge and
the bulk add of `sync_all_repos` — is lock-guarded. -/
theorem c7_unlocked_emptiness_check :
    syncIterationAccesses true true =
      [{ kind := SetAccessKind.emptinessCheck, lockHeld := false },
        { kind := SetAccessKind.popElem, lockHeld := true },
        { kind := SetAccessKind.addElem, lockHeld := true }] ∧
    syncIterationAccesses true false =
      [{ kind := SetAccessKind.emptinessCheck, lockHeld := false },
        { kind := SetAccessKind.popElem, lockHeld := true }] ∧
    syncIterationAccesses false true = [{ kind := SetAccessKind.emptinessCheck, lockHeld := false }] ∧
    syncIterationAccesses false false = [{ kind := SetAccessKind.emptinessCheck, lockHeld := false }] ∧
    uploadFilesMergeAccesses = [{ kind := SetAccessKind.addElem, lockHeld := true }] ∧
    syncAllReposAddAccesses = [{ kind := SetAccessKind.addElem, lockHeld := true }] ∧
    (∃ a ∈ syncIterationAccesses true true, a.lockHeld = false) ∧
    (∃ a ∈ syncIterationAccesses false false, a.lockHeld = false) := by
  decide

/-- Embedding of `S3AsyncModel.get_package` (model.py lines 387-389). The
returned tuple records, in order: the model state after the call, the
exception raised (none — the `NotImplementedError` is constructed but
never raised), the exception values that were constructed and discarded,
and the Python return value (`None`, rendered as `Unit`). -/
def get_package (st : ModelState) (package : Package) :
    ModelState × Option PyError × List PyError × Unit :=
  (st, none,
    [PyError.notImplementedError "get_package hasn't been implemented yet."], ())

/-- Embedding of `S3AsyncModel.delete_package` (model.py lines 391-393);
see `get_package` for the meaning of the components. -/
def delete_package (st : ModelState) (package : Package) :
    ModelState × Option PyError × List PyError × Unit :=
  (st, none,
    [PyError.notImplementedError "delete_package hasn't been implemented yet."], ())

/-- Embedding of `S3AsyncModel.get_file` (model.py lines 395-397);
see `get_package` for the meaning of the components. -/
def get_file (st : ModelState) (path : String) :
    ModelState × Option PyError × List PyError × Unit :=
  (st, none,
    [PyError.notImplementedError "get_file hasn't been implemented yet."], ())

/-- Embedding of `S3AsyncModel.delete_file` (model.py lines 399-401);
see `get_package` for the meaning of the components. -/
def delete_file (st : ModelState) (path : String) :
    ModelState × Option PyError × List PyError × Unit :=
  (st, none,
    [PyError.notImplementedError "delete_file hasn't been implemented yet."], ())

/-- C10: each of the four unimplemented operations leaves the model state
unchanged, raises nothing, merely constructs (and discards) its
`NotImplementedError` value, and returns Python `None`. -/
theorem c10_stubs_do_nothing (st : ModelState) (package : Package) (path : String) :
    get_package st package = (st, none,
      [PyError.notImplementedError "get_package hasn't been implemented yet."], ()) ∧
    delete_package st package = (st, none,
      [PyError.notImplementedError "delete_package hasn't been implemented yet."], ()) ∧
    get_file st path = (st, none,
      [PyError.notImplementedError "get_file hasn't been implemented yet."], ()) ∧
    delete_file st path = (st, none,
      [PyError.notImplementedError "delete_file hasn't been implemented yet."], ()) :=
  ⟨rfl, rfl, rfl, rfl⟩

/-- Embedding of `S3AsyncModel._get_deb_repo_path` (model.py lines
187-216). `s3Listing` models `list_objects_v2(...).get('CommonPrefixes')`:
`none` when S3 reports no common prefixes under the queried prefix, and
`some l` with the returned prefix strings otherwise. The method returns
the single path `base_path + '/'` when anything exists under it. -/
def _get_deb_repo_path (s3Listing : String → Option (List String))
    (base_path : String) : List String :=
  let path := base_path ++ "/"
  match s3Listing path with
  | none => []
  | some _ => [path]

/-- Embedding of `S3AsyncModel._get_rpm_repo_path` (model.py lines
218-245): for each distribution version, append every common prefix S3
reports under `base_path/version/` (each `repo['Prefix']`) to the result
list. -/
def _get_rpm_repo_path (s3Listing : String → Option (List String))
    (base_path : String) (dist_versions : List String) : List String :=
  dist_versions.foldl (fun repos_list ver =>
    match s3Listing (base_path ++ "/" ++ ver ++ "/") with
    | none => repos_list
    | some dist_repos_list => repos_list ++ dist_repos_list) []

/-- Helper: a string obtained by appending a block that does not end in
`'/'` never factors as something followed by `"/"`. -/
theorem no_trailing_slash_append (a b : String) (hb : b.data ≠ [])
    (hlast : b.data.getLast? ≠ some '/') : ¬ ∃ t, a ++ b = t ++ "/" := by
  rintro ⟨t, ht⟩
  have hd : a.data ++ b.data = t.data ++ "/".data := by
    have := congrArg String.data ht
    rwa [String.data_append, String.data_append] at this
  have h1 : (a.data ++ b.data).getLast? = some '/' := by
    rw [hd, List.getLast?_append_of_ne_nil t.data (by decide)]
    rfl
  rw [List.getLast?_append_of_ne_nil a.data hb] at h1
  exact hlast h1

/-- Helper: appending the path separator strictly lengthens a string, so
the discovery spelling `p ++ "/"` and the formatting spelling `p` of the
same repository are different set elements. -/
theorem append_slash_ne (s : String) : s ++ "/" ≠ s := by
  intro h
  have hl := congrArg String.length h
  rw [String.length_append] at hl
  have hone : ("/" : String).length = 1 := rfl
  rw [hone] at hl
  omega

/-- Helper: everything `_get_rpm_repo_path` returns ends in `'/'`,
provided every prefix string S3 reports ends in `'/'` (the S3 contract:
a common prefix always ends with the requested delimiter). -/
theorem rpm_repo_paths_trailing (s3Listing : String → Option (List String))
    (base_path : String) (vers : List String)
    (hS3 : ∀ q l, s3Listing q = some l → ∀ r ∈ l, ∃ t, r = t ++ "/") :
    ∀ r ∈ _get_rpm_repo_path s3Listing base_path vers, ∃ t, r = t ++ "/" := by
  have key : ∀ (vs acc : List String), (∀ r ∈ acc, ∃ t, r = t ++ "/") →
      ∀ r ∈ vs.foldl (fun repos_list ver =>
          match s3Listing (base_path ++ "/" ++ ver ++ "/") with
          | none => repos_list
          | some dist_repos_list => repos_list ++ dist_repos_list) acc,
        ∃ t, r = t ++ "/" := by
    intro vs
    induction vs with
    | nil => intro acc hacc r hr; exact hacc r hr
    | cons v rest ih =>
      intro acc hacc r hr
      rw [List.foldl_cons] at hr
      cases hls : s3Listing (base_path ++ "/" ++ v ++ "/") with
      | none =>
        rw [hls] at hr
        exact ih acc hacc r hr
      | some l =>
        rw [hls] at hr
        refine ih _ ?_ r hr
        intro x hx
        rcases List.mem_append.mp hx with hx | hx
        · exact hacc x hx
        · exact hS3 _ _ hls x hx
  intro r hr
  exact key vers [] (fun x hx => absurd hx (List.not_mem_nil x)) r hr

/-- Helper: a successful rpm formatting yields one of the two repository
path shapes. -/
theorem formatPaths_rpm_ok {dp dv f rp op : String}
    (h : _format_paths dp dv "rpm" f = Except.ok (rp, op)) :
    rp = dp ++ "/" ++ dv ++ "/" ++ "x86_64" ∨ rp = dp ++ "/" ++ dv ++ "/" ++ "SRPMS" := by
  by_cases h1 : matchesRpmBinary f
  · have he : _format_paths dp dv "rpm" f =
        Except.ok (dp ++ "/" ++ dv ++ "/" ++ "x86_64",
          dp ++ "/" ++ dv ++ "/" ++ "x86_64" ++ "/" ++ "Packages" ++ "/" ++ f) := by
      simp [_format_paths, h1]
    rw [he] at h
    simp only [Except.ok.injEq, Prod.mk.injEq] at h
    exact Or.inl h.1.symm
  · by_cases h2 : matchesRpmSrc f
    · have he : _format_paths dp dv "rpm" f =
          Except.ok (dp ++ "/" ++ dv ++ "/" ++ "SRPMS",
            dp ++ "/" ++ dv ++ "/" ++ "SRPMS" ++ "/" ++ "Packages" ++ "/" ++ f) := by
        simp [_format_paths, h1, h2]
      rw [he] at h
      simp only [Except.ok.injEq, Prod.mk.injEq] at h
      exact Or.inr h.1.symm
    · have he : _format_paths dp dv "rpm" f =
          Except.error (PyError.s3ModelRequestError (file_type_err f "rpm")) := by
        simp [_format_paths, h1, h2]
      rw [he] at h
      cases h

/-- Helper: a successful deb formatting returns the distribution path
itself as the repository path. -/
theorem formatPaths_deb_ok {dp dv f rp op : String}
    (h : _format_paths dp dv "deb" f = Except.ok (rp, op)) : rp = dp := by
  by_cases h1 : matchesDeb f
  · have he : _format_paths dp dv "deb" f =
        Except.ok (dp, dp ++ "/" ++ "pool" ++ "/" ++ dv ++ "/" ++ "main" ++ "/"
          ++ firstChar f ++ "/" ++ partitionBeforeUnderscore f ++ "/" ++ f) := by
      simp [_format_paths, h1]
    rw [he] at h
    simp only [Except.ok.injEq, Prod.mk.injEq] at h
    exact h.1.symm
  · have he : _format_paths dp dv "deb" f =
        Except.error (PyError.s3ModelRequestError (file_type_err f "deb")) := by
      simp [_format_paths, h1]
    rw [he] at h
    cases h

/-- C8: every repository path reported by deb discovery ends in `'/'`;
under the S3 contract that a reported common prefix ends with the
requested delimiter, so does every rpm discovery path; the repository
paths produced by `_format_paths` carry no trailing `'/'` (for deb,
whenever the distribution path itself carries none); hence the same
repository enters the dirty set under two distinct strings depending on
whether `sync_all_repos` discovered it or `put_package` dirtied it. -/
theorem c8_trailing_slash_mismatch (s3Listing : String → Option (List String))
    (base_path dp dv f : String) (vers : List String) :
    (∀ r ∈ _get_deb_repo_path s3Listing base_path, ∃ t, r = t ++ "/") ∧
    ((∀ q l, s3Listing q = some l → ∀ r ∈ l, ∃ t, r = t ++ "/") →
      ∀ r ∈ _get_rpm_repo_path s3Listing base_path vers, ∃ t, r = t ++ "/") ∧
    (∀ rp op, _format_paths dp dv "rpm" f = Except.ok (rp, op) → ¬ ∃ t, rp = t ++ "/") ∧
    ((¬ ∃ t, dp = t ++ "/") → ∀ rp op,
      _format_paths dp dv "deb" f = Except.ok (rp, op) → ¬ ∃ t, rp = t ++ "/") ∧
    (∀ r ∈ _get_deb_repo_path s3Listing dp, ∀ rp op,
      _format_paths dp dv "deb" f = Except.ok (rp, op) → r ≠ rp) ∧
    ((∀ q l, s3Listing q = some l → ∀ r ∈ l, ∃ t, r = t ++ "/") →
      ∀ r ∈ _get_rpm_repo_path s3Listing base_path vers, ∀ rp op,
        _format_paths dp dv "rpm" f = Except.ok (rp, op) → r ≠ rp) := by
  have hdebdisc : ∀ b : String, ∀ r ∈ _get_deb_repo_path s3Listing b, r = b ++ "/" := by
    intro b r hr
    simp only [_get_deb_repo_path] at hr
    cases hls : s3Listing (b ++ "/") with
    | none =>
      rw [hls] at hr
      exact absurd hr (List.not_mem_nil r)
    | some l =>
      rw [hls] at hr
      simpa using hr
  have hfmt3 : ∀ rp op, _format_paths dp dv "rpm" f = Except.ok (rp, op) →
      ¬ ∃ t, rp = t ++ "/" := by
    intro rp op h
    rcases formatPaths_rpm_ok h with h' | h' <;> subst h'
    · exact no_trailing_slash_append (dp ++ "/" ++ dv ++ "/") "x86_64"
        (by decide) (by decide)
    · exact no_trailing_slash_append (dp ++ "/" ++ dv ++ "/") "SRPMS"
        (by decide) (by decide)
  refine ⟨?_, ?_, hfmt3, ?_, ?_, ?_⟩
  · intro r hr
    exact ⟨base_path, hdebdisc base_path r hr⟩
  · intro hS3
    exact rpm_repo_paths_trailing s3Listing base_path vers hS3
  · intro hdp rp op h
    rw [formatPaths_deb_ok h]
    exact hdp
  · intro r hr rp op h
    rw [hdebdisc dp r hr, formatPaths_deb_ok h]
    exact append_slash_ne dp
  · intro hS3 r hr rp op h heq
    have h1 := rpm_repo_paths_trailing s3Listing base_path vers hS3 r hr
    exact hfmt3 rp op h (heq ▸ h1)

/-- Witness for `c8_trailing_slash_mismatch`: a discovered deb repository
is the string `live/release/1.10/ubuntu/`, while an upload to the same
repository dirties `live/release/1.10/ubuntu`; the two are distinct. -/
theorem c8_trailing_slash_mismatch_witness :
    (∃ t, ("live/release/1.10/ubuntu/" : String) = t ++ "/") ∧
    ("live/release/1.10/ubuntu/" : String) ≠ "live/release/1.10/ubuntu" := by
  have h := c8_trailing_slash_mismatch (fun _ => some ["live/release/1.10/fedora/31/x86_64/"])
    "live/release/1.10/ubuntu" "live/release/1.10/ubuntu" "disco"
    "tarantool_2.8.1-1_amd64.deb" ["31"]
  refine ⟨h.1 "live/release/1.10/ubuntu/" (by decide), ?_⟩
  exact h.2.2.2.2.1 "live/release/1.10/ubuntu/" (by decide)
    "live/release/1.10/ubuntu"
    "live/release/1.10/ubuntu/pool/disco/main/t/tarantool/tarantool_2.8.1-1_amd64.deb"
    (by rfl)

end S3Repo
